import Mathlib

/-!
Shallow embedding of the `@1001-digital/ponder-ens` cache service
(`src/service.ts`, `src/routes.ts`, `src/schema.ts`, `src/types.ts`).

The Profile Store (`offchain.ens_profile` table) is modelled as a list of
rows; SQL `limit 1` selects become `List.find?`, the conditional bulk
update becomes `List.map`, and drizzle's insert-on-conflict-do-update
becomes a map-or-append.  The viem client and `viem/ens` `normalize` are
external collaborators: they appear as function-valued fields of an
environment, returning `Except Unit _` so that a thrown JavaScript
exception is an `.error`.  JavaScript truthiness is modelled explicitly:
the empty string is falsy in `providedEns || ...` and `if (ens)`, and the
number `0` is falsy in `if (!timestamp)`.  Every external access (store
read/write, resolver call) is recorded in an event list so that theorems
can speak about which collaborators an operation touched.
-/

namespace PonderEns

/-- Nested `links` record of the profile metadata (src/types.ts). -/
structure Links where
  url : String
  email : String
  twitter : String
  github : String
  deriving DecidableEq

/-- The `data` column of a profile row (src/types.ts `EnsProfileData`). -/
structure EnsProfileData where
  avatar : String
  header : String
  description : String
  links : Links
  deriving DecidableEq

/-- One row of the `ens_profile` table (src/types.ts `EnsProfile`,
src/schema.ts): `address` is the primary key, `ens` and `data` are
nullable, `updated_at` is a non-null integer (seconds). -/
structure EnsProfile where
  address : String
  ens : Option String
  data : Option EnsProfileData
  updatedAt : Int
  deriving DecidableEq

/-- Result shape of `resolveProfile` (src/types.ts `ProfileResult`). -/
structure ProfileResult where
  address : Option String
  ensName : Option String
  cachedProfile : Option EnsProfile
  isFresh : Bool
  deriving DecidableEq

/-- The `ens_profile` table: a list of rows, in select order. -/
abbrev Store := List EnsProfile

/-- Observable accesses to the external collaborators: the three store
statements of the service and the four viem client calls (each recorded
with the argument the service passed). -/
inductive Event where
  | dbSelect
  | dbUpdate
  | dbUpsert
  | getEnsName (address : String)
  | getEnsAddress (name : String)
  | getEnsAvatar (name : String)
  | getEnsText (name : String) (key : String)
  deriving DecidableEq

/-- Whether an event is a resolver (viem client) invocation. -/
def Event.isResolverCall : Event → Bool
  | .dbSelect | .dbUpdate | .dbUpsert => false
  | _ => true

/-- Whether an event is an access to the Profile Store. -/
def Event.isStoreAccess : Event → Bool
  | .dbSelect | .dbUpdate | .dbUpsert => true
  | _ => false

/-- The viem public client consumed by the service (src/types.ts
`EnsPluginConfig.client`).  A thrown exception is `.error ()`; a normal
missing record is `.ok none`. -/
structure Client where
  getEnsName : String → Except Unit (Option String)
  getEnsAddress : String → Except Unit (Option String)
  getEnsAvatar : String → Except Unit (Option String)
  getEnsText : String → String → Except Unit (Option String)

/-- Everything `createEnsService` closes over: the client, the external
`normalize` function of `viem/ens` (which throws on disallowed names),
the current `Date.now()` in milliseconds, and the optional `cacheTtl`
configuration. -/
structure Env where
  client : Client
  normalize : String → Except Unit String
  now : Int
  cacheTtl : Option Int

/-- `DEFAULT_CACHE_TTL = 30 * 24 * 60 * 60 * 1000` (service.ts line 235). -/
def DEFAULT_CACHE_TTL : Int := 30 * 24 * 60 * 60 * 1000

/-- `config.cacheTtl ?? DEFAULT_CACHE_TTL` (service.ts line 239). -/
def effectiveCacheTtl (env : Env) : Int :=
  env.cacheTtl.getD DEFAULT_CACHE_TTL

/-- JavaScript `x || null` for a string-or-null value: both `null` and
the empty string are falsy and collapse to `null`. -/
def jsOrNull : Option String → Option String
  | none => none
  | some s => if s == "" then none else some s

/-- JavaScript `String.prototype.toLowerCase`, on the character list of
the string (ASCII case-folding). -/
def jsToLower (s : String) : String := ⟨s.data.map Char.toLower⟩

/-- viem `isAddress`, syntactically: `0x` followed by 40 hex digits. -/
def isHexDigit (c : Char) : Bool :=
  c.isDigit || (decide ('a' ≤ c) && decide (c ≤ 'f')) ||
    (decide ('A' ≤ c) && decide (c ≤ 'F'))

/-- Syntactic address test used to classify identifiers. -/
def isAddress (s : String) : Bool :=
  match s.data with
  | '0' :: 'x' :: rest => rest.length == 40 && rest.all isHexDigit
  | _ => false

/-- `isFresh` (service.ts lines 247-250): `if (!timestamp) return false`
is JavaScript falsiness, so both `null` and `0` are never fresh; then
`Date.now() - timestamp * 1000 < cacheTtl`. -/
def isFresh (env : Env) (timestamp : Option Int) : Bool :=
  match timestamp with
  | none => false
  | some t => if t == 0 then false
      else decide (env.now - t * 1000 < effectiveCacheTtl env)

/-- Row predicate of the `fetchProfile` select (service.ts lines 259-273):
`or(isAddress ? eq(address, identifier.toLowerCase()) : undefined,
eq(ens, identifier.toLowerCase()))`. -/
def profileMatches (identifier : String) (r : EnsProfile) : Bool :=
  (isAddress identifier && (r.address == jsToLower identifier)) ||
    (r.ens == some (jsToLower identifier))

/-- `fetchProfile` (service.ts lines 252-276): one select with
`limit(1)`, no writes, no resolver calls. -/
def fetchProfile (store : Store) (identifier : String) :
    Option EnsProfile × List Event :=
  (store.find? (profileMatches identifier), [Event.dbSelect])

/-- The all-empty `ProfileResult`. -/
def emptyResult : ProfileResult := ⟨none, none, none, false⟩

/-- `resolveProfile` (service.ts lines 278-347).  `if (!identifier)`
short-circuits exactly on the empty string; the address path is not
guarded by try/catch (a `getEnsName` rejection propagates as `.error`);
the whole name path is inside try/catch, so any `normalize` or
`getEnsAddress` rejection, and the explicit throw when no address is
found, collapse to the all-empty result. -/
def resolveProfile (env : Env) (store : Store) (identifier : String) :
    Except Unit ProfileResult × List Event :=
  if identifier == "" then (.ok emptyResult, [])
  else if isAddress identifier then
    let address := jsToLower identifier
    let fp := fetchProfile store address
    match fp.1 with
    | some p =>
        (.ok ⟨some address, p.ens, some p, isFresh env (some p.updatedAt)⟩, fp.2)
    | none =>
        match env.client.getEnsName address with
        | .error e => (.error e, fp.2 ++ [Event.getEnsName address])
        | .ok n =>
            (.ok ⟨some address, jsOrNull n, none, false⟩,
              fp.2 ++ [Event.getEnsName address])
  else
    let normalizedEns := jsToLower identifier
    let fp := fetchProfile store normalizedEns
    match fp.1 with
    | some p =>
        (.ok ⟨some p.address, some normalizedEns, some p,
          isFresh env (some p.updatedAt)⟩, fp.2)
    | none =>
        match env.normalize normalizedEns with
        | .error _ => (.ok emptyResult, fp.2)
        | .ok nn =>
            match env.client.getEnsAddress nn with
            | .error _ => (.ok emptyResult, fp.2 ++ [Event.getEnsAddress nn])
            | .ok a =>
                match jsOrNull a with
                | none => (.ok emptyResult, fp.2 ++ [Event.getEnsAddress nn])
                | some addr =>
                    (.ok ⟨some (jsToLower addr), some normalizedEns, none, false⟩,
                      fp.2 ++ [Event.getEnsAddress nn])

/-- The effective-name determination of `updateProfile` (service.ts lines
356-359): `providedEns || (await client.getEnsName({address})) || null`,
with JavaScript `||` treating the empty string as falsy. -/
def determineEns (env : Env) (normalizedAddress : String)
    (providedEns : Option String) : Except Unit (Option String) × List Event :=
  match jsOrNull providedEns with
  | some s => (.ok (some s), [])
  | none =>
      match env.client.getEnsName normalizedAddress with
      | .error e => (.error e, [Event.getEnsName normalizedAddress])
      | .ok n => (.ok (jsOrNull n), [Event.getEnsName normalizedAddress])

/-- The default metadata record: every field the empty string
(service.ts lines 364-374). -/
def emptyProfileData : EnsProfileData := ⟨"", "", "", ⟨"", "", "", ""⟩⟩

/-- The metadata fetch of `updateProfile` (service.ts lines 376-405):
for a truthy name, `normalize` it (a rejection propagates) and fetch the
seven records via `Promise.all`; each falsy result leaves the default
empty string in place. -/
def fetchMetadata (env : Env) (ens : Option String) :
    Except Unit EnsProfileData × List Event :=
  match ens with
  | none => (.ok emptyProfileData, [])
  | some e =>
      if e == "" then (.ok emptyProfileData, [])
      else
        match env.normalize e with
        | .error err => (.error err, [])
        | .ok nn =>
            let ev := [Event.getEnsAvatar nn, Event.getEnsText nn "header",
              Event.getEnsText nn "description", Event.getEnsText nn "url",
              Event.getEnsText nn "email", Event.getEnsText nn "com.twitter",
              Event.getEnsText nn "com.github"]
            match env.client.getEnsAvatar nn, env.client.getEnsText nn "header",
                env.client.getEnsText nn "description",
                env.client.getEnsText nn "url", env.client.getEnsText nn "email",
                env.client.getEnsText nn "com.twitter",
                env.client.getEnsText nn "com.github" with
            | .ok avatar, .ok header, .ok description, .ok url, .ok email,
                .ok twitter, .ok github =>
                (.ok ⟨avatar.getD "", header.getD "", description.getD "",
                  ⟨url.getD "", email.getD "", twitter.getD "", github.getD ""⟩⟩,
                  ev)
            | _, _, _, _, _, _, _ => (.error (), ev)

/-- Row transformer of the clear-ENS update (service.ts lines 416-426):
`set({ens: null})` on rows with `ens = e` and `address <> keepAddress`. -/
def clearRow (e keepAddress : String) (r : EnsProfile) : EnsProfile :=
  if r.ens == some e && r.address != keepAddress then { r with ens := none }
  else r

/-- The clear-ENS bulk update of `updateProfile` (service.ts lines
416-426). -/
def clearEnsExcept (store : Store) (e keepAddress : String) : Store :=
  store.map (clearRow e keepAddress)

/-- The `insert .. onConflictDoUpdate` of `updateProfile` (service.ts
lines 428-437): keyed by `address`; on conflict every non-key field
(`ens`, `data`, `updatedAt`) is replaced. -/
def upsertProfile (store : Store) (address : String) (ens : Option String)
    (data : EnsProfileData) (updatedAt : Int) : Store :=
  if store.any (fun r => r.address == address) then
    store.map fun r =>
      if r.address == address then
        { r with ens := ens, data := some data, updatedAt := updatedAt }
      else r
  else
    store ++ [⟨address, ens, some data, updatedAt⟩]

/-- `updateProfile` (service.ts lines 349-438): lowercase the address,
determine the effective name (lowercasing a truthy one), fetch metadata,
then — when the name is truthy — clear it from every other row, and
finally upsert the full row with `updatedAt = Math.floor(Date.now() / 1000)`. -/
def updateProfile (env : Env) (store : Store) (address : String)
    (providedEns : Option String := none) : Except Unit Store × List Event :=
  let normalizedAddress := jsToLower address
  match determineEns env normalizedAddress providedEns with
  | (.error e, ev0) => (.error e, ev0)
  | (.ok ens0, ev0) =>
      let ens : Option String :=
        match ens0 with
        | some s => if s == "" then some s else some (jsToLower s)
        | none => none
      match fetchMetadata env ens with
      | (.error e, ev1) => (.error e, ev0 ++ ev1)
      | (.ok data, ev1) =>
          let updatedAt := Int.fdiv env.now 1000
          let cleared : Store × List Event :=
            match ens with
            | some e =>
                if e == "" then (store, [])
                else (clearEnsExcept store e normalizedAddress, [Event.dbUpdate])
            | none => (store, [])
          let store2 :=
            upsertProfile cleared.1 normalizedAddress ens data updatedAt
          (.ok store2, ev0 ++ ev1 ++ cleared.2 ++ [Event.dbUpsert])

/-- HTTP responses of the route layer, as far as the spec observes them:
a JSON error body with a status, or the JSON of a profile-or-null. -/
inductive Response where
  | jsonError (status : Nat) (error : String)
  | json (profile : Option EnsProfile)
  deriving DecidableEq

/-- The `GET /:id` handler (src/routes.ts lines 11-25): resolve, 400 when
no address, serve the cached profile when present and fresh, otherwise
`updateProfile` (passing the resolved name as hint) then `fetchProfile`. -/
def getProfileRoute (env : Env) (store : Store) (id : String) :
    Except Unit (Response × Store) × List Event :=
  match resolveProfile env store id with
  | (.error e, ev) => (.error e, ev)
  | (.ok result, ev) =>
      match result.address with
      | none => (.ok (.jsonError 400 "Invalid address or ENS name", store), ev)
      | some address =>
          if result.cachedProfile.isSome && result.isFresh then
            (.ok (.json result.cachedProfile, store), ev)
          else
            match updateProfile env store address result.ensName with
            | (.error e, ev2) => (.error e, ev ++ ev2)
            | (.ok store2, ev2) =>
                let fp := fetchProfile store2 address
                (.ok (.json fp.1, store2), ev ++ ev2 ++ fp.2)

/-- Primary-key invariant of the `ens_profile` table: addresses are
pairwise distinct. -/
def addrUnique (store : Store) : Prop :=
  store.Pairwise fun r s => r.address ≠ s.address

/-! Concrete environments used to evaluate the model at specific inputs. -/

/-- A client whose every lookup succeeds with no record. -/
def okNoneClient : Client :=
  ⟨fun _ => .ok none, fun _ => .ok none, fun _ => .ok none, fun _ _ => .ok none⟩

/-- Clock at 0, default TTL, identity normalization, empty registry. -/
def env0 : Env := ⟨okNoneClient, fun s => .ok s, 0, none⟩

/-- Clock at 1000 ms, otherwise as `env0`. -/
def env1000 : Env := ⟨okNoneClient, fun s => .ok s, 1000, none⟩

/-- An environment whose registry canonicalization differs from ASCII
lowercasing on every name: it stands for the full ENSIP normalization
algorithm at an input where that algorithm does not coincide with
`toLowerCase`. -/
def envNorm : Env := ⟨okNoneClient, fun _ => .ok "canonical.eth", 0, none⟩

/-- An environment whose reverse lookup always reports `bob.eth`. -/
def envRev : Env :=
  ⟨⟨fun _ => .ok (some "bob.eth"), fun _ => .ok none, fun _ => .ok none,
    fun _ _ => .ok none⟩, fun s => .ok s, 0, none⟩

/-- An environment with a populated registry: the avatar lookup returns
a URL, each text-record lookup echoes its key, and the clock is at
1234567 ms. -/
def envData : Env :=
  ⟨⟨fun _ => .ok none, fun _ => .ok none, fun _ => .ok (some "https://img"),
    fun _ k => .ok (some k)⟩, fun s => .ok s, 1234567, none⟩

/-! General-purpose lemmas about the store model. -/

/-- `find?` returns the unique element satisfying the predicate. -/
theorem find?_eq_some_of_unique {α : Type} (p : α → Bool) {l : List α} {a : α}
    (ha : a ∈ l) (hpa : p a = true)
    (huniq : ∀ b ∈ l, p b = true → b = a) : l.find? p = some a := by
  induction l with
  | nil => cases ha
  | cons x xs ih =>
    by_cases hx : p x = true
    · have hxa : x = a := huniq x (List.mem_cons_self ..) hx
      subst hxa
      exact List.find?_cons_of_pos _ hx
    · rw [List.find?_cons_of_neg _ hx]
      rcases List.mem_cons.mp ha with h | h
      · subst h; exact absurd hpa hx
      · exact ih h fun b hb hpb => huniq b (List.mem_cons_of_mem _ hb) hpb

/-- Under the primary-key invariant, two rows with the same address are
the same row. -/
theorem eq_of_mem_addrUnique {store : Store} (h : addrUnique store)
    {a b : EnsProfile} (ha : a ∈ store) (hb : b ∈ store)
    (hab : a.address = b.address) : a = b := by
  induction store with
  | nil => cases ha
  | cons x xs ih =>
    rcases List.pairwise_cons.mp h with ⟨hx, hxs⟩
    rcases List.mem_cons.mp ha with rfl | ha2 <;>
      rcases List.mem_cons.mp hb with rfl | hb2
    · rfl
    · exact absurd hab (hx _ hb2)
    · exact absurd hab.symm (hx _ ha2)
    · exact ih hxs ha2 hb2

/-- `clearRow` never changes the address of a row. -/
theorem clearRow_address (e k : String) (r : EnsProfile) :
    (clearRow e k r).address = r.address := by
  unfold clearRow; split <;> rfl

/-- The `ens` of a cleared row: `none` when the row held `e` and is not
the kept address, unchanged otherwise. -/
theorem clearRow_ens (e k : String) (r : EnsProfile) :
    ((r.ens = some e ∧ r.address ≠ k ∧ clearRow e k r = { r with ens := none }) ∨
      (¬(r.ens = some e ∧ r.address ≠ k) ∧ clearRow e k r = r)) := by
  unfold clearRow
  by_cases h1 : r.ens = some e
  · by_cases h2 : r.address = k
    · right
      refine ⟨fun h => h.2 h2, ?_⟩
      simp [h1, h2]
    · left
      refine ⟨h1, h2, ?_⟩
      simp [h1, h2]
  · right
    refine ⟨fun h => h1 h.1, ?_⟩
    simp [h1]

/-- Membership in a cleared store comes from membership in the source. -/
theorem mem_clearEnsExcept {store : Store} {e k : String} {r : EnsProfile}
    (h : r ∈ clearEnsExcept store e k) :
    ∃ r0 ∈ store, r = clearRow e k r0 := by
  rcases List.mem_map.mp h with ⟨r0, hr0, hr⟩
  exact ⟨r0, hr0, hr.symm⟩

/-- Every source row appears cleared in the cleared store. -/
theorem clearRow_mem_clearEnsExcept {store : Store} {r : EnsProfile}
    (e k : String) (h : r ∈ store) : clearRow e k r ∈ clearEnsExcept store e k :=
  List.mem_map_of_mem _ h

/-- Membership after an upsert: either the freshly written row, or an
untouched row of the source whose address differs from the key. -/
theorem mem_upsertProfile {store : Store} {address : String}
    {ens : Option String} {data : EnsProfileData} {updatedAt : Int}
    {r : EnsProfile} (h : r ∈ upsertProfile store address ens data updatedAt) :
    r = ⟨address, ens, some data, updatedAt⟩ ∨
      ∃ r0 ∈ store, r0.address ≠ address ∧ r = r0 := by
  unfold upsertProfile at h
  split at h
  · rcases List.mem_map.mp h with ⟨r0, hr0, hr⟩
    by_cases ha : r0.address = address
    · left
      rw [← hr]
      simp [ha]
    · right
      refine ⟨r0, hr0, ha, ?_⟩
      rw [← hr]
      simp [ha]
  · next hany =>
    rcases List.mem_append.mp h with h2 | h2
    · right
      refine ⟨r, h2, ?_, rfl⟩
      intro hra
      exact absurd (List.any_eq_true.mpr ⟨r, h2, by simp [hra]⟩) hany
    · left
      simpa using h2

/-- The upserted row is in the result of the upsert. -/
theorem self_mem_upsertProfile (store : Store) (address : String)
    (ens : Option String) (data : EnsProfileData) (updatedAt : Int) :
    (⟨address, ens, some data, updatedAt⟩ : EnsProfile) ∈
      upsertProfile store address ens data updatedAt := by
  unfold upsertProfile
  split
  · next hany =>
    rcases List.any_eq_true.mp hany with ⟨r0, hr0, hra⟩
    have hra2 : r0.address = address := by simpa using hra
    refine List.mem_map.mpr ⟨r0, hr0, ?_⟩
    simp [hra2]
  · exact List.mem_append.mpr (Or.inr (by simp))

/-- Rows at other addresses survive an upsert unchanged. -/
theorem mem_upsertProfile_of_ne {store : Store} {r : EnsProfile}
    {address : String} (ens : Option String) (data : EnsProfileData)
    (updatedAt : Int) (h : r ∈ store) (hne : r.address ≠ address) :
    r ∈ upsertProfile store address ens data updatedAt := by
  unfold upsertProfile
  split
  · refine List.mem_map.mpr ⟨r, h, ?_⟩
    simp [hne]
  · exact List.mem_append.mpr (Or.inl h)

/-- Evaluation of `updateProfile` when the effective name is determined
and non-empty and every resolver call succeeds: the store is cleared of
the lowercased name (keeping the target address) and the full row is
upserted. -/
theorem updateProfile_named_eq (env : Env) (store : Store) (addr : String)
    (providedEns : Option String) (m nn : String) (ev0 : List Event)
    (av hd de ur em tw gh : Option String)
    (hdet : determineEns env (jsToLower addr) providedEns = (.ok (some m), ev0))
    (hm : m ≠ "") (hml : jsToLower m ≠ "")
    (hnorm : env.normalize (jsToLower m) = .ok nn)
    (h1 : env.client.getEnsAvatar nn = .ok av)
    (h2 : env.client.getEnsText nn "header" = .ok hd)
    (h3 : env.client.getEnsText nn "description" = .ok de)
    (h4 : env.client.getEnsText nn "url" = .ok ur)
    (h5 : env.client.getEnsText nn "email" = .ok em)
    (h6 : env.client.getEnsText nn "com.twitter" = .ok tw)
    (h7 : env.client.getEnsText nn "com.github" = .ok gh) :
    updateProfile env store addr providedEns =
      (.ok (upsertProfile (clearEnsExcept store (jsToLower m) (jsToLower addr))
          (jsToLower addr) (some (jsToLower m))
          ⟨av.getD "", hd.getD "", de.getD "",
            ⟨ur.getD "", em.getD "", tw.getD "", gh.getD ""⟩⟩
          (Int.fdiv env.now 1000)),
        ev0 ++ [Event.getEnsAvatar nn, Event.getEnsText nn "header",
          Event.getEnsText nn "description", Event.getEnsText nn "url",
          Event.getEnsText nn "email", Event.getEnsText nn "com.twitter",
          Event.getEnsText nn "com.github", Event.dbUpdate, Event.dbUpsert]) := by
  have hm2 : (m == "") = false := by simpa using hm
  have hml2 : (jsToLower m == "") = false := by simpa using hml
  unfold updateProfile fetchMetadata
  simp [hdet, hm2, hml2, hnorm, h1, h2, h3, h4, h5, h6, h7]

/-- Evaluation of `updateProfile` with no name hint when the reverse
lookup succeeds with no record: no metadata fetch, no clear update, a
bare upsert of the empty-data row. -/
theorem updateProfile_noname_eq (env : Env) (store : Store) (addr : String)
    (hname : env.client.getEnsName (jsToLower addr) = .ok none) :
    updateProfile env store addr none =
      (.ok (upsertProfile store (jsToLower addr) none emptyProfileData
          (Int.fdiv env.now 1000)),
        [Event.getEnsName (jsToLower addr), Event.dbUpsert]) := by
  unfold updateProfile determineEns fetchMetadata jsOrNull
  simp [hname]

/-! Claim theorems. -/

/-- C6 counterexample: `updatedAt = 0` is a present (non-null) timestamp
for which the claimed equivalence fails: at `now = 1000` ms with the
default TTL the formula `now - updatedAt * 1000 < ttl` holds, yet
`isFresh` returns `false`, because JavaScript `!timestamp` also rejects
the number `0`. -/
theorem isFresh_zero_timestamp_cex :
    isFresh env1000 (some 0) = false ∧
      env1000.now - 0 * 1000 < effectiveCacheTtl env1000 := by
  exact ⟨rfl, by decide⟩

/-- C6 (amended): for a non-null timestamp `t`, `isFresh` holds exactly
when `t ≠ 0` and `now - t * 1000 < ttl`; a null timestamp — and the
timestamp `0` — is never fresh; with no TTL override the TTL is 30 days,
2592000000 ms. -/
theorem isFresh_spec (env : Env) (t : Int) :
    (isFresh env (some t) = true ↔
      (t ≠ 0 ∧ env.now - t * 1000 < effectiveCacheTtl env)) ∧
    isFresh env none = false ∧
    isFresh env (some 0) = false ∧
    effectiveCacheTtl ⟨env.client, env.normalize, env.now, none⟩ = 2592000000 := by
  refine ⟨?_, rfl, rfl, ?_⟩
  · unfold isFresh
    by_cases h : t = 0
    · simp [h]
    · simp [h]
  · unfold effectiveCacheTtl DEFAULT_CACHE_TTL
    norm_num

/-- C7 counterexample: the blank (whitespace-only) input `" "` is truthy
in JavaScript, so `resolveProfile " "` does not short-circuit: it reads
the Profile Store (a `dbSelect` event) and even reaches the resolver,
contradicting the claimed "no store access and no resolver call" for
blank input. -/
theorem resolve_blank_input_cex :
    (resolveProfile env0 [] " ").2 =
        [Event.dbSelect, Event.getEnsAddress " "] ∧
      Event.dbSelect ∈ (resolveProfile env0 [] " ").2 ∧
      Event.isStoreAccess Event.dbSelect = true := by
  exact ⟨rfl, by decide, rfl⟩

/-- C7 (amended): for the empty input string — the only input
`if (!identifier)` treats as falsy — `resolveProfile` returns the
all-empty result and performs no store access and no resolver call. -/
theorem resolve_empty_input (env : Env) (store : Store) :
    resolveProfile env store "" = (.ok emptyResult, []) := rfl

/-- C8 (confirmed): `fetchProfile` is a pure read: its only external
access is a single store select (in particular no resolver call and no
write); a returned row is a member of the store matching on the
lowercased address (when the identifier is address-form) or on exact
equality of `ens` with the lowercased identifier; `none` means no row
matches either key. -/
theorem fetchProfile_pure_read (store : Store) (id : String) :
    ((fetchProfile store id).2 = [Event.dbSelect]) ∧
    (∀ e ∈ (fetchProfile store id).2, e.isResolverCall = false) ∧
    (∀ r, (fetchProfile store id).1 = some r →
      r ∈ store ∧
        ((isAddress id = true ∧ r.address = jsToLower id) ∨
          r.ens = some (jsToLower id))) ∧
    ((fetchProfile store id).1 = none →
      ∀ r ∈ store,
        ¬((isAddress id = true ∧ r.address = jsToLower id) ∨
          r.ens = some (jsToLower id))) := by
  refine ⟨rfl, ?_, ?_, ?_⟩
  · intro e he
    simp only [fetchProfile, List.mem_singleton] at he
    subst he
    rfl
  · intro r hr
    simp only [fetchProfile] at hr
    refine ⟨List.mem_of_find?_eq_some hr, ?_⟩
    have hp := List.find?_some hr
    unfold profileMatches at hp
    simp only [Bool.or_eq_true, Bool.and_eq_true, beq_iff_eq] at hp
    rcases hp with ⟨ha, hb⟩ | h
    · exact Or.inl ⟨ha, hb⟩
    · exact Or.inr (by simpa using h)
  · intro hn r hr
    simp only [fetchProfile] at hn
    have hp := List.find?_eq_none.mp hn r hr
    unfold profileMatches at hp
    simp only [Bool.or_eq_true, Bool.and_eq_true, beq_iff_eq, not_or, not_and] at hp
    rintro (⟨ha, hb⟩ | h)
    · exact hp.1 ha hb
    · exact hp.2 (by simpa using h)

/-- C9 counterexample: with the provided (non-null) name hint `""`,
JavaScript `providedEns || ...` falls through, so the reverse lookup IS
invoked and the effective name is its result `bob.eth`, not the hint. -/
theorem determineEns_empty_hint_cex :
    determineEns envRev "0xaddress" (some "") =
        (.ok (some "bob.eth"), [Event.getEnsName "0xaddress"]) ∧
      (some "bob.eth" : Option String) ≠ some "" ∧
      Event.isResolverCall (Event.getEnsName "0xaddress") = true := by
  exact ⟨rfl, by decide, rfl⟩

/-- C9 (amended): when the name hint is provided, non-null AND
non-empty, the effective name is that hint and the reverse lookup is not
invoked; when the hint is absent, null, or the empty string, the
effective name is the reverse lookup's result, with an empty-string
result also collapsing to null. -/
theorem determineEns_selection (env : Env) (a : String) (hint : Option String) :
    (∀ s, hint = some s → s ≠ "" →
      determineEns env a hint = (.ok (some s), [])) ∧
    ((hint = none ∨ hint = some "") →
      determineEns env a hint =
        ((env.client.getEnsName a).map jsOrNull, [Event.getEnsName a])) := by
  constructor
  · rintro s rfl hs
    have hs2 : (s == "") = false := by simpa using hs
    unfold determineEns jsOrNull
    simp [hs2]
  · rintro (rfl | rfl) <;>
      · unfold determineEns jsOrNull
        cases h : env.client.getEnsName a <;> simp [h, Except.map]

/-- C4 (confirmed): on the name path with no cached row, a forward
lookup that yields no address (null or the falsy empty string), a
`normalize` rejection, or a `getEnsAddress` rejection all produce the
all-empty result as a normal return, not an error. -/
theorem resolve_name_miss_collapses (env : Env) (store : Store)
    (identifier : String)
    (hne : identifier ≠ "") (haddr : isAddress identifier = false)
    (hmiss : (fetchProfile store (jsToLower identifier)).1 = none)
    (hfail : (∃ e, env.normalize (jsToLower identifier) = .error e) ∨
      ∃ nn, env.normalize (jsToLower identifier) = .ok nn ∧
        (env.client.getEnsAddress nn = .error () ∨
          ∃ a, env.client.getEnsAddress nn = .ok a ∧ jsOrNull a = none)) :
    (resolveProfile env store identifier).1 = .ok emptyResult := by
  have hne2 : (identifier == "") = false := by simpa using hne
  unfold resolveProfile
  rcases hfail with ⟨e, hE⟩ | ⟨nn, hok, herr | ⟨a, hA, hJ⟩⟩
  · simp [hne2, haddr, hmiss, hE]
  · simp [hne2, haddr, hmiss, hok, herr]
  · simp [hne2, haddr, hmiss, hok, hA, hJ]

/-- C4 witness: resolving `unregistered.eth` against an empty store with
a registry whose forward lookup finds nothing returns the all-empty
result without raising. -/
theorem resolve_name_miss_witness :
    (resolveProfile env0 [] "unregistered.eth").1 = .ok emptyResult :=
  resolve_name_miss_collapses env0 [] "unregistered.eth" (by decide)
    (by decide) rfl (Or.inr ⟨"unregistered.eth", rfl, Or.inr ⟨none, rfl, rfl⟩⟩)

/-- C3 counterexample: with a registry canonicalization that maps
`alice.eth` to `canonical.eth` (standing for the full ENSIP
normalization at an input where it differs from ASCII lowercasing),
`updateProfile` persists the merely lowercased `alice.eth`, not the
canonical form — the stored name does not equal the registry's
canonicalization of the name. -/
theorem update_persists_lowercase_cex :
    (updateProfile envNorm [] "0xAbCdEf0123456789aBcDeF0123456789AbCdEf01"
        (some "Alice.eth")).1 =
      .ok [⟨"0xabcdef0123456789abcdef0123456789abcdef01", some "alice.eth",
        some emptyProfileData, 0⟩] ∧
    envNorm.normalize "alice.eth" = .ok "canonical.eth" ∧
    ("alice.eth" : String) ≠ "canonical.eth" := by
  exact ⟨rfl, rfl, by decide⟩

/-- C3 (amended): names are canonicalized for the store by mere
lowercasing — `updateProfile` persists `toLowerCase` of the effective
name while passing `normalize` of it to the resolver calls, and the
name path of `resolveProfile` keys the store lookup (and reports the
name) by the lowercased identifier, not by the registry's full
normalization. -/
theorem store_keys_are_lowercased (env : Env) (store : Store)
    (addr n nn id : String) (av hd de ur em tw gh : Option String)
    (p : EnsProfile) :
    (n ≠ "" → jsToLower n ≠ "" →
      env.normalize (jsToLower n) = .ok nn →
      env.client.getEnsAvatar nn = .ok av →
      env.client.getEnsText nn "header" = .ok hd →
      env.client.getEnsText nn "description" = .ok de →
      env.client.getEnsText nn "url" = .ok ur →
      env.client.getEnsText nn "email" = .ok em →
      env.client.getEnsText nn "com.twitter" = .ok tw →
      env.client.getEnsText nn "com.github" = .ok gh →
      ∃ store2 ev, updateProfile env store addr (some n) = (.ok store2, ev) ∧
        (∃ r ∈ store2, r.address = jsToLower addr ∧ r.ens = some (jsToLower n)) ∧
        Event.getEnsAvatar nn ∈ ev) ∧
    (id ≠ "" → isAddress id = false →
      (fetchProfile store (jsToLower id)).1 = some p →
      resolveProfile env store id =
        (.ok ⟨some p.address, some (jsToLower id), some p,
          isFresh env (some p.updatedAt)⟩, [Event.dbSelect])) := by
  constructor
  · intro hm hml hnorm h1 h2 h3 h4 h5 h6 h7
    have hdet : determineEns env (jsToLower addr) (some n) = (.ok (some n), []) := by
      have hm2 : (n == "") = false := by simpa using hm
      unfold determineEns jsOrNull
      simp [hm2]
    refine ⟨_, _, updateProfile_named_eq env store addr (some n) n nn []
      av hd de ur em tw gh hdet hm hml hnorm h1 h2 h3 h4 h5 h6 h7, ?_, ?_⟩
    · exact ⟨_, self_mem_upsertProfile _ _ _ _ _, rfl, rfl⟩
    · simp
  · intro hne haddr hhit
    have hne2 : (id == "") = false := by simpa using hne
    have hhit2 : store.find? (profileMatches (jsToLower id)) = some p := hhit
    unfold resolveProfile
    simp [hne2, haddr, hhit2, fetchProfile]

/-- A `resolveProfile` call that returns a cached profile performed
exactly one store select and nothing else: only the two cache-hit
branches produce a non-null `cachedProfile`, and both return right after
the select. -/
theorem resolveProfile_cached_events {env : Env} {store : Store} {id : String}
    {r : ProfileResult} {ev : List Event}
    (h : resolveProfile env store id = (.ok r, ev))
    (hc : r.cachedProfile.isSome = true) : ev = [Event.dbSelect] := by
  unfold resolveProfile at h
  simp only [fetchProfile] at h
  split at h <;> (try split at h) <;> (try split at h) <;>
    (try split at h) <;> (try split at h) <;> (try split at h)
  all_goals
    injection h with h1 h2
    first
      | exact Except.noConfusion h1
      | (injection h1 with h1
         subst h1
         subst h2
         first
           | rfl
           | simp [emptyResult] at hc)

/-- C3 witness: the amended behavior at a concrete input — a hint
`Alice.eth` is stored as `alice.eth` while the resolver is called with
the normalization function's output. -/
theorem store_keys_are_lowercased_witness :
    ∃ store2 ev,
      updateProfile envNorm [] "0xAbCdEf0123456789aBcDeF0123456789AbCdEf01"
        (some "Alice.eth") = (.ok store2, ev) ∧
      (∃ r ∈ store2,
        r.address = "0xabcdef0123456789abcdef0123456789abcdef01" ∧
        r.ens = some "alice.eth") ∧
      Event.getEnsAvatar "canonical.eth" ∈ ev := by
  have h := (store_keys_are_lowercased envNorm []
    "0xAbCdEf0123456789aBcDeF0123456789AbCdEf01" "Alice.eth" "canonical.eth"
    "" none none none none none none none ⟨"", none, none, 0⟩).1
    (by decide) (by decide) rfl rfl rfl rfl rfl rfl rfl rfl
  simpa using h

/-- C5 counterexample: the 400 body of the route is
`{error: "Invalid address or ENS name"}`, not the claimed
`{error: "Invalid address or name"}`. -/
theorem get_route_error_body_cex :
    getProfileRoute env0 [] "" =
        (.ok (.jsonError 400 "Invalid address or ENS name", []), []) ∧
      ("Invalid address or ENS name" : String) ≠ "Invalid address or name" := by
  exact ⟨rfl, by decide⟩

/-- C5 (amended): for every `GET /:id` request, when `resolveProfile`
determines no address the response is HTTP 400 with body
`{error: "Invalid address or ENS name"}`; when a cached profile exists
and is fresh the response is that profile's JSON and no resolver call
was made; otherwise `updateProfile` runs and the response is the JSON of
the subsequent `fetchProfile`. -/
theorem get_route_behavior (env : Env) (store : Store) (id : String)
    (r : ProfileResult) (ev : List Event) (a : String) (store2 : Store)
    (ev2 : List Event) :
    (resolveProfile env store id = (.ok r, ev) → r.address = none →
      getProfileRoute env store id =
        (.ok (.jsonError 400 "Invalid address or ENS name", store), ev)) ∧
    (resolveProfile env store id = (.ok r, ev) → r.address = some a →
      r.cachedProfile.isSome = true → r.isFresh = true →
      getProfileRoute env store id = (.ok (.json r.cachedProfile, store), ev) ∧
        ∀ e ∈ ev, e.isResolverCall = false) ∧
    (resolveProfile env store id = (.ok r, ev) → r.address = some a →
      (r.cachedProfile.isSome = false ∨ r.isFresh = false) →
      updateProfile env store a r.ensName = (.ok store2, ev2) →
      getProfileRoute env store id =
        (.ok (.json (fetchProfile store2 a).1, store2),
          ev ++ ev2 ++ [Event.dbSelect])) := by
  refine ⟨?_, ?_, ?_⟩
  · intro h hnone
    unfold getProfileRoute
    rw [h]
    simp [hnone]
  · intro h hsome hc hf
    constructor
    · unfold getProfileRoute
      rw [h]
      simp [hsome, hc, hf]
    · intro e he
      rw [resolveProfile_cached_events h hc] at he
      simp only [List.mem_singleton] at he
      subst he
      rfl
  · intro h hsome hcf hup
    unfold getProfileRoute
    rw [h]
    rcases hcf with hc | hf
    · simp [hsome, hc, hup, fetchProfile]
    · rcases hcp : r.cachedProfile.isSome <;>
        simp [hsome, hf, hcp, hup, fetchProfile]

/-- C5 witness: at the concrete empty identifier the route returns the
400 body of the code. -/
theorem get_route_behavior_witness :
    getProfileRoute env0 [] "" =
      (.ok (.jsonError 400 "Invalid address or ENS name", []), []) :=
  (get_route_behavior env0 [] "" emptyResult [] "" [] []).1 rfl rfl

/-- C2 (confirmed): whenever an effective name is determined,
`updateProfile` fetches the seven metadata records from the resolver,
defaults each absent value to the empty string, and upserts the full
row keyed by the lowercased address — the computed name, data and
`updatedAt = Math.floor(now / 1000)` replace every non-key field of any
existing row at that address. -/
theorem updateProfile_full_replacement (env : Env) (store : Store)
    (addr : String) (providedEns : Option String) (m nn : String)
    (ev0 : List Event) (av hd de ur em tw gh : Option String)
    (hdet : determineEns env (jsToLower addr) providedEns = (.ok (some m), ev0))
    (hm : m ≠ "") (hml : jsToLower m ≠ "")
    (hnorm : env.normalize (jsToLower m) = .ok nn)
    (h1 : env.client.getEnsAvatar nn = .ok av)
    (h2 : env.client.getEnsText nn "header" = .ok hd)
    (h3 : env.client.getEnsText nn "description" = .ok de)
    (h4 : env.client.getEnsText nn "url" = .ok ur)
    (h5 : env.client.getEnsText nn "email" = .ok em)
    (h6 : env.client.getEnsText nn "com.twitter" = .ok tw)
    (h7 : env.client.getEnsText nn "com.github" = .ok gh) :
    ∃ store2,
      updateProfile env store addr providedEns =
        (.ok store2,
          ev0 ++ [Event.getEnsAvatar nn, Event.getEnsText nn "header",
            Event.getEnsText nn "description", Event.getEnsText nn "url",
            Event.getEnsText nn "email", Event.getEnsText nn "com.twitter",
            Event.getEnsText nn "com.github", Event.dbUpdate,
            Event.dbUpsert]) ∧
      (⟨jsToLower addr, some (jsToLower m),
        some ⟨av.getD "", hd.getD "", de.getD "",
          ⟨ur.getD "", em.getD "", tw.getD "", gh.getD ""⟩⟩,
        Int.fdiv env.now 1000⟩ : EnsProfile) ∈ store2 ∧
      ∀ r ∈ store2, r.address = jsToLower addr →
        r = ⟨jsToLower addr, some (jsToLower m),
          some ⟨av.getD "", hd.getD "", de.getD "",
            ⟨ur.getD "", em.getD "", tw.getD "", gh.getD ""⟩⟩,
          Int.fdiv env.now 1000⟩ := by
  refine ⟨_, updateProfile_named_eq env store addr providedEns m nn ev0
    av hd de ur em tw gh hdet hm hml hnorm h1 h2 h3 h4 h5 h6 h7,
    self_mem_upsertProfile _ _ _ _ _, ?_⟩
  intro r hr hra
  rcases mem_upsertProfile hr with h | ⟨r0, _, hner, rfl⟩
  · exact h
  · exact absurd hra hner

/-- C2 witness: refreshing an address whose row held stale values
replaces every field with the resolver's records (each key echoed, the
avatar URL, and the clock in whole seconds). -/
theorem updateProfile_full_replacement_witness :
    ∃ store2,
      updateProfile envData
          [⟨"0xabcdef0123456789abcdef0123456789abcdef01", some "old.eth",
            none, 3⟩]
          "0xAbCdEf0123456789aBcDeF0123456789AbCdEf01" (some "Alice.eth") =
        (.ok store2,
          [] ++ [Event.getEnsAvatar "alice.eth",
            Event.getEnsText "alice.eth" "header",
            Event.getEnsText "alice.eth" "description",
            Event.getEnsText "alice.eth" "url",
            Event.getEnsText "alice.eth" "email",
            Event.getEnsText "alice.eth" "com.twitter",
            Event.getEnsText "alice.eth" "com.github", Event.dbUpdate,
            Event.dbUpsert]) ∧
      (⟨"0xabcdef0123456789abcdef0123456789abcdef01", some "alice.eth",
        some ⟨"https://img", "header", "description",
          ⟨"url", "email", "com.twitter", "com.github"⟩⟩, 1234⟩ :
        EnsProfile) ∈ store2 ∧
      ∀ r ∈ store2,
        r.address = "0xabcdef0123456789abcdef0123456789abcdef01" →
        r = ⟨"0xabcdef0123456789abcdef0123456789abcdef01", some "alice.eth",
          some ⟨"https://img", "header", "description",
            ⟨"url", "email", "com.twitter", "com.github"⟩⟩, 1234⟩ := by
  have h := updateProfile_full_replacement envData
    [⟨"0xabcdef0123456789abcdef0123456789abcdef01", some "old.eth", none, 3⟩]
    "0xAbCdEf0123456789aBcDeF0123456789AbCdEf01" (some "Alice.eth")
    "Alice.eth" "alice.eth" [] (some "https://img") (some "header")
    (some "description") (some "url") (some "email") (some "com.twitter")
    (some "com.github") rfl (by decide) (by decide) rfl rfl rfl rfl rfl rfl
    rfl rfl
  simpa using h

/-- C10 (confirmed): `updateProfile` with no hint and an empty reverse
lookup still upserts a complete row for the lowercased address — name
null, every data field the empty string, `updatedAt` the clock in whole
seconds — and touches no other row (no clear-name update is issued). -/
theorem updateProfile_no_name (env : Env) (store : Store) (addr : String)
    (hname : env.client.getEnsName (jsToLower addr) = .ok none) :
    ∃ store2,
      updateProfile env store addr none =
        (.ok store2, [Event.getEnsName (jsToLower addr), Event.dbUpsert]) ∧
      (⟨jsToLower addr, none, some emptyProfileData, Int.fdiv env.now 1000⟩ :
        EnsProfile) ∈ store2 ∧
      (∀ r ∈ store2, r.address = jsToLower addr →
        r = ⟨jsToLower addr, none, some emptyProfileData,
          Int.fdiv env.now 1000⟩) ∧
      (∀ r ∈ store, r.address ≠ jsToLower addr → r ∈ store2) := by
  refine ⟨_, updateProfile_noname_eq env store addr hname,
    self_mem_upsertProfile _ _ _ _ _, ?_, ?_⟩
  · intro r hr hra
    rcases mem_upsertProfile hr with h | ⟨r0, _, hner, rfl⟩
    · exact h
    · exact absurd hra hner
  · intro r hr hne
    exact mem_upsertProfile_of_ne _ _ _ hr hne

/-- C10 witness: updating a fresh address against a store holding an
unrelated row creates the empty-data row and leaves the other row in
place; the only events are the reverse lookup and the upsert. -/
theorem updateProfile_no_name_witness :
    ∃ store2,
      updateProfile env1000
          [⟨"0xcccccccccccccccccccccccccccccccccccccccc", some "carol.eth",
            none, 7⟩]
          "0xDdDdDdDdDdDdDdDdDdDdDdDdDdDdDdDdDdDdDdDd" none =
        (.ok store2,
          [Event.getEnsName "0xdddddddddddddddddddddddddddddddddddddddd",
            Event.dbUpsert]) ∧
      (⟨"0xdddddddddddddddddddddddddddddddddddddddd", none,
        some emptyProfileData, 1⟩ : EnsProfile) ∈ store2 ∧
      (∀ r ∈ store2,
        r.address = "0xdddddddddddddddddddddddddddddddddddddddd" →
        r = ⟨"0xdddddddddddddddddddddddddddddddddddddddd", none,
          some emptyProfileData, 1⟩) ∧
      (∀ r ∈ [(⟨"0xcccccccccccccccccccccccccccccccccccccccc",
          some "carol.eth", none, 7⟩ : EnsProfile)],
        r.address ≠ "0xdddddddddddddddddddddddddddddddddddddddd" →
        r ∈ store2) := by
  exact updateProfile_no_name env1000
    [⟨"0xcccccccccccccccccccccccccccccccccccccccc", some "carol.eth",
      none, 7⟩]
    "0xDdDdDdDdDdDdDdDdDdDdDdDdDdDdDdDdDdDdDdDd" rfl

/-- C1 (confirmed): for distinct addresses `A` and `B` and a non-empty
canonical (lowercased) effective name `n` held by `A`'s row, a
successful `updateProfile B n` clears the name from `A`'s row inside the
same call before upserting it on `B`'s row: afterwards `fetchProfile A`
returns `A`'s row with a null name, `fetchProfile B` returns a row whose
name is `n`, and no row other than `B`'s holds `n`.  The store is
assumed to satisfy the primary-key invariant and to hold no name that
collides with the lowercased form of either address. -/
theorem identity_transfer (env : Env) (store : Store) (A B n nn : String)
    (rowA : EnsProfile) (av hd de ur em tw gh : Option String)
    (hA : isAddress A = true) (hB : isAddress B = true)
    (hAB : jsToLower A ≠ jsToLower B)
    (huniq : addrUnique store)
    (hmemA : rowA ∈ store) (haddrA : rowA.address = jsToLower A)
    (hensA : rowA.ens = some n)
    (hne : n ≠ "") (hlow : jsToLower n = n)
    (hclean : ∀ r ∈ store,
      r.ens ≠ some (jsToLower A) ∧ r.ens ≠ some (jsToLower B))
    (hnorm : env.normalize n = .ok nn)
    (h1 : env.client.getEnsAvatar nn = .ok av)
    (h2 : env.client.getEnsText nn "header" = .ok hd)
    (h3 : env.client.getEnsText nn "description" = .ok de)
    (h4 : env.client.getEnsText nn "url" = .ok ur)
    (h5 : env.client.getEnsText nn "email" = .ok em)
    (h6 : env.client.getEnsText nn "com.twitter" = .ok tw)
    (h7 : env.client.getEnsText nn "com.github" = .ok gh) :
    ∃ store2 ev,
      updateProfile env store B (some n) = (.ok store2, ev) ∧
      (fetchProfile store2 A).1 = some { rowA with ens := none } ∧
      (∃ rB, (fetchProfile store2 B).1 = some rB ∧
        rB.address = jsToLower B ∧ rB.ens = some n) ∧
      (∀ r ∈ store2, r.address ≠ jsToLower B → r.ens ≠ some n) := by
  have hml : jsToLower n ≠ "" := by rw [hlow]; exact hne
  have hnorm2 : env.normalize (jsToLower n) = .ok nn := by
    rw [hlow]; exact hnorm
  have hdet : determineEns env (jsToLower B) (some n) = (.ok (some n), []) := by
    have hne2 : (n == "") = false := by simpa using hne
    unfold determineEns jsOrNull
    simp [hne2]
  have heq := updateProfile_named_eq env store B (some n) n nn []
    av hd de ur em tw gh hdet hne hml hnorm2 h1 h2 h3 h4 h5 h6 h7
  rw [hlow] at heq
  have hnA : n ≠ jsToLower A := by
    intro hnn
    exact (hclean rowA hmemA).1 (hensA.trans (congrArg some hnn))
  have hnB : n ≠ jsToLower B := by
    intro hnn
    exact (hclean rowA hmemA).2 (hensA.trans (congrArg some hnn))
  have hAimg : clearRow n (jsToLower B) rowA = { rowA with ens := none } := by
    rcases clearRow_ens n (jsToLower B) rowA with ⟨_, _, hEq⟩ | ⟨hcond, _⟩
    · exact hEq
    · exact absurd ⟨hensA, by rw [haddrA]; exact hAB⟩ hcond
  refine ⟨_, _, heq, ?_, ?_, ?_⟩
  · -- fetchProfile A returns the cleared row of A
    simp only [fetchProfile]
    apply find?_eq_some_of_unique
    · rw [← hAimg]
      apply mem_upsertProfile_of_ne _ _ _
        (clearRow_mem_clearEnsExcept n (jsToLower B) hmemA)
      rw [clearRow_address, haddrA]
      exact hAB
    · unfold profileMatches
      simp [hA, haddrA]
    · intro b hb hpb
      unfold profileMatches at hpb
      simp only [Bool.or_eq_true, Bool.and_eq_true, beq_iff_eq] at hpb
      rcases mem_upsertProfile hb with rfl | ⟨r0, hr0s, hr0ne, rfl⟩
      · exfalso
        rcases hpb with ⟨_, hba⟩ | hbe
        · exact hAB (by simpa using hba.symm)
        · exact hnA (by simpa using hbe)
      · rcases mem_clearEnsExcept hr0s with ⟨r1, hr1, rfl⟩
        rcases hpb with ⟨_, hba⟩ | hbe
        · rw [clearRow_address] at hba
          have hr1A : r1 = rowA :=
            eq_of_mem_addrUnique huniq hr1 hmemA (hba.trans haddrA.symm)
          rw [hr1A, hAimg]
        · exfalso
          rcases clearRow_ens n (jsToLower B) r1 with ⟨_, _, hEq⟩ | ⟨_, hEq⟩ <;>
            rw [hEq] at hbe
          · simp at hbe
          · exact (hclean r1 hr1).1 (by simpa using hbe)
  · -- fetchProfile B returns the upserted row
    refine ⟨⟨jsToLower B, some n,
      some ⟨av.getD "", hd.getD "", de.getD "",
        ⟨ur.getD "", em.getD "", tw.getD "", gh.getD ""⟩⟩,
      Int.fdiv env.now 1000⟩, ?_, rfl, rfl⟩
    simp only [fetchProfile]
    apply find?_eq_some_of_unique
    · exact self_mem_upsertProfile _ _ _ _ _
    · unfold profileMatches
      simp [hB]
    · intro b hb hpb
      unfold profileMatches at hpb
      simp only [Bool.or_eq_true, Bool.and_eq_true, beq_iff_eq] at hpb
      rcases mem_upsertProfile hb with rfl | ⟨r0, hr0s, hr0ne, rfl⟩
      · rfl
      · exfalso
        rcases mem_clearEnsExcept hr0s with ⟨r1, hr1, rfl⟩
        rcases hpb with ⟨_, hba⟩ | hbe
        · exact hr0ne hba
        · rcases clearRow_ens n (jsToLower B) r1 with ⟨_, _, hEq⟩ | ⟨_, hEq⟩ <;>
            rw [hEq] at hbe
          · simp at hbe
          · exact (hclean r1 hr1).2 (by simpa using hbe)
  · -- no other row holds n
    intro r hr hrB
    rcases mem_upsertProfile hr with rfl | ⟨r0, hr0s, hr0ne, rfl⟩
    · exact absurd rfl hrB
    · rcases mem_clearEnsExcept hr0s with ⟨r1, hr1, rfl⟩
      rcases clearRow_ens n (jsToLower B) r1 with ⟨_, _, hEq⟩ | ⟨hcond, hEq⟩ <;>
        rw [hEq]
      · simp
      · intro hensn
        apply hcond
        refine ⟨by simpa using hensn, ?_⟩
        rw [clearRow_address] at hr0ne
        exact hr0ne

/-- C1 witness: `alice.eth`, held by address `0xaa…aa`, is transferred
to `0xbb…bb` by `updateProfile`; afterwards the old holder's row reports
no name, the new holder's row reports `alice.eth`, and no other row
holds it. -/
theorem identity_transfer_witness :
    ∃ store2 ev,
      updateProfile env0
          [⟨"0xaaaaaaaaaaaaaaaaaaaaaaaaaaaaaaaaaaaaaaaa", some "alice.eth",
            none, 5⟩]
          "0xbbbbbbbbbbbbbbbbbbbbbbbbbbbbbbbbbbbbbbbb" (some "alice.eth") =
        (.ok store2, ev) ∧
      (fetchProfile store2 "0xaaaaaaaaaaaaaaaaaaaaaaaaaaaaaaaaaaaaaaaa").1 =
        some { (⟨"0xaaaaaaaaaaaaaaaaaaaaaaaaaaaaaaaaaaaaaaaa",
          some "alice.eth", none, 5⟩ : EnsProfile) with ens := none } ∧
      (∃ rB,
        (fetchProfile store2 "0xbbbbbbbbbbbbbbbbbbbbbbbbbbbbbbbbbbbbbbbb").1 =
          some rB ∧
        rB.address = jsToLower "0xbbbbbbbbbbbbbbbbbbbbbbbbbbbbbbbbbbbbbbbb" ∧
        rB.ens = some "alice.eth") ∧
      (∀ r ∈ store2,
        r.address ≠ jsToLower "0xbbbbbbbbbbbbbbbbbbbbbbbbbbbbbbbbbbbbbbbb" →
        r.ens ≠ some "alice.eth") := by
  exact identity_transfer env0
    [⟨"0xaaaaaaaaaaaaaaaaaaaaaaaaaaaaaaaaaaaaaaaa", some "alice.eth",
      none, 5⟩]
    "0xaaaaaaaaaaaaaaaaaaaaaaaaaaaaaaaaaaaaaaaa"
    "0xbbbbbbbbbbbbbbbbbbbbbbbbbbbbbbbbbbbbbbbb" "alice.eth" "alice.eth"
    ⟨"0xaaaaaaaaaaaaaaaaaaaaaaaaaaaaaaaaaaaaaaaa", some "alice.eth",
      none, 5⟩
    none none none none none none none
    (by decide) (by decide) (by decide)
    (by simp [addrUnique]) (by simp) rfl rfl (by decide) rfl
    (by decide) rfl rfl rfl rfl rfl rfl rfl rfl

end PonderEns
